import Mathlib

/-!
# Verification of the consulting-ai opportunity/phase/artifact core

Shallow embedding of the data model and operations of the consulting-ai
repository.  The durable storage layer is embedded from the SQL schemas
(`supabase_schema.sql`, single-user and multi-user variants); the frontend
validation and parsing logic is embedded from the React components
(`CreateOpportunityModal`, `AddArtifactModal`, `OpportunityPanel`,
`OpportunityDrawer`).  The backend orchestration (Engagement Service) is not
present in the repository sources; where a claim depends on it, the
corresponding definition is modelled from the specification and marked as
such in its doc comment.
-/

namespace ConsultingAI

/-- Error taxonomy of spec section 7: ValidationError, NotFound,
InvalidPhaseError, Conflict, Unavailable. -/
inductive DomainError where
  | ValidationError
  | NotFound
  | InvalidPhaseError
  | Conflict
  | Unavailable
deriving DecidableEq, Repr

/-- The fixed ordered phase set, from `PHASE_ORDER` in
`frontend/src/components/OpportunityPanel.tsx` (and the `PHASES` list in the
opportunity drawer). -/
def PHASE_ORDER : List String :=
  ["pre_assessment", "discovery", "solution_design", "implementation"]

/-- The enumerated artifact types, from `ARTIFACT_TYPES` in the
add-artifact modal. -/
def ARTIFACT_TYPES : List String :=
  ["meeting_note", "pain_point", "process_map", "requirement", "risk",
   "deliverable", "stakeholder_note", "other"]

/-- A row of the `opportunities` table (multi-user schema; the single-user
schema is identical minus `user_id`).  Nullable columns are `Option`;
`description` has no NOT NULL constraint.  Timestamps are modelled as `Nat`. -/
structure OpportunityRow where
  id : String
  user_id : String
  name : String
  client_name : String
  description : Option String
  current_phase : String
  status : String
  created_at : Nat
  context_summary : String
  stakeholders : List String
  key_insights : List String
deriving DecidableEq, Repr

/-- The column names of the `opportunities` table in the single-user schema
(`CREATE TABLE opportunities`, lines 8-19).  There is no `artifacts_count`
column: the opportunity-level artifact count is not stored. -/
def opportunitiesColumns : List String :=
  ["id", "name", "client_name", "description", "current_phase", "status",
   "created_at", "context_summary", "stakeholders", "key_insights"]

/-- A row of the `phase_progress` table.  `start_date` and `end_date` are
nullable timestamps; `artifacts_count` defaults to 0. -/
structure PhaseProgressRow where
  opportunity_id : String
  phase : String
  status : String
  start_date : Option Nat
  end_date : Option Nat
  key_activities : List String
  artifacts_count : Int
  completion_percentage : Int
deriving DecidableEq, Repr

/-- A row of the `artifacts` table.  `created_by` has no NOT NULL
constraint, so it is nullable. -/
structure ArtifactRow where
  id : String
  opportunity_id : String
  title : String
  content : String
  artifact_type : String
  phase : String
  created_by : Option String
  created_at : Nat
  tags : List String
deriving DecidableEq, Repr

/-- A row of the `active_opportunity` table (multi-user schema: one row per
user, `UNIQUE(user_id)`; `opportunity_id` is nullable because the foreign
key is declared `ON DELETE SET NULL`). -/
structure ActiveOpportunityRow where
  user_id : String
  opportunity_id : Option String
deriving DecidableEq, Repr

/-- The database state: the four tables of the schema that the claims are
about. -/
structure DB where
  opportunities : List OpportunityRow
  phase_progress : List PhaseProgressRow
  artifacts : List ArtifactRow
  active_opportunity : List ActiveOpportunityRow
deriving DecidableEq, Repr

/-- The SQL helper `increment_artifacts_count(opp_id, phase_name)`:
a single UPDATE statement setting `artifacts_count = artifacts_count + 1`
on the `phase_progress` rows matching `opportunity_id = opp_id AND
phase = phase_name`.  It touches no other table. -/
def increment_artifacts_count (db : DB) (opp_id phase_name : String) : DB :=
  { db with
    phase_progress := db.phase_progress.map (fun r =>
      if r.opportunity_id = opp_id ∧ r.phase = phase_name then
        { r with artifacts_count := r.artifacts_count + 1 }
      else r) }

/-! ## Frontend string processing (JavaScript semantics at character level) -/

/-- Whitespace test used by the character-level model of JavaScript
`String.prototype.trim`. -/
def isWs (c : Char) : Bool := c = ' ' || c = '\t' || c = '\n' || c = '\r'

/-- Drop whitespace from both ends of a character list. -/
def trimChars (l : List Char) : List Char :=
  ((l.dropWhile isWs).reverse.dropWhile isWs).reverse

/-- JavaScript `s.trim()`. -/
def jsTrim (s : String) : String := ⟨trimChars s.data⟩

/-- Splitting on a comma, accumulator style: JavaScript `s.split(",")`. -/
def splitAux : List Char → List Char → List (List Char)
  | [], acc => [acc.reverse]
  | c :: cs, acc =>
      if c = ',' then acc.reverse :: splitAux cs []
      else splitAux cs (c :: acc)

/-- JavaScript `s.split(",")`. -/
def jsSplitComma (s : String) : List String := (splitAux s.data []).map (fun l => ⟨l⟩)

/-- `CreateOpportunityModal.validate`: records an error for each of `name`,
`clientName`, `description` whose trimmed value is empty (JavaScript
`!s.trim()`), and returns true iff no error was recorded. -/
def validateOpportunityForm (name clientName description : String) : Bool :=
  let newErrors : List String :=
    (if jsTrim name = "" then ["name"] else []) ++
    (if jsTrim clientName = "" then ["clientName"] else []) ++
    (if jsTrim description = "" then ["description"] else [])
  newErrors.length = 0

/-- `AddArtifactModal.handleSubmit` tag processing:
`tags.split(",").map(t => t.trim()).filter(Boolean)`. -/
def parseTags (tags : String) : List String :=
  ((jsSplitComma tags).map jsTrim).filter (fun t => !(t == ""))

/-! ## Storage-level operations -/

/-- The derived opportunity-level artifact count: the number of artifact
rows owned by the opportunity.  The `opportunities` table stores no
`artifacts_count` column, so the API-level `Opportunity.artifactsCount`
field can only be this derived value. -/
def oppArtifactsCount (db : DB) (oppId : String) : Nat :=
  (db.artifacts.filter (fun a => a.opportunity_id = oppId)).length

/-- Insertion into `phase_progress` under the schema's
`UNIQUE(opportunity_id, phase)` constraint; a uniqueness violation is
surfaced as `Conflict` per the error taxonomy, leaving the table as it was. -/
def insertPhaseProgress (db : DB) (row : PhaseProgressRow) : Except DomainError DB :=
  if db.phase_progress.any (fun r =>
      r.opportunity_id = row.opportunity_id ∧ r.phase = row.phase) then
    .error .Conflict
  else
    .ok { db with phase_progress := db.phase_progress ++ [row] }

/-- The pre-populated `phase_progress` rows for a fresh opportunity: one per
phase of `PHASE_ORDER`, the first phase `in_progress` (its `start_date` set),
the rest `not_started`, all counts zero (schema defaults). -/
def initialPhaseProgress (oppId : String) (now : Nat) : List PhaseProgressRow :=
  PHASE_ORDER.map (fun ph =>
    { opportunity_id := oppId
      phase := ph
      status := if ph = "pre_assessment" then "in_progress" else "not_started"
      start_date := if ph = "pre_assessment" then some now else none
      end_date := none
      key_activities := []
      artifacts_count := 0
      completion_percentage := 0 })

/-- Modelled from the spec: the Engagement Service `createOpportunity`
operation (the backend application code is absent from the repository
sources).  The validation gate is the one in `CreateOpportunityModal.validate`;
the stored row takes the schema defaults `current_phase = 'pre_assessment'`,
`status = 'active'`, and one `phase_progress` row per phase is created with
the opportunity. -/
def createOpportunity (db : DB) (now : Nat) (userId id name clientName description : String)
    (stakeholders : List String) : Except DomainError (OpportunityRow × DB) :=
  if validateOpportunityForm name clientName description then
    let opp : OpportunityRow :=
      { id := id
        user_id := userId
        name := name
        client_name := clientName
        description := some description
        current_phase := "pre_assessment"
        status := "active"
        created_at := now
        context_summary := ""
        stakeholders := stakeholders
        key_insights := [] }
    .ok (opp,
      { db with
        opportunities := db.opportunities ++ [opp]
        phase_progress := db.phase_progress ++ initialPhaseProgress id now })
  else
    .error .ValidationError

/-- Modelled from the spec: the Engagement Service `addArtifact` operation
(backend application code absent).  It stores the artifact row and applies
the schema's `increment_artifacts_count` helper to the matching
`phase_progress` row. -/
def addArtifact (db : DB) (a : ArtifactRow) : Except DomainError DB :=
  if db.opportunities.any (fun o => o.id = a.opportunity_id) then
    .ok (increment_artifacts_count
      { db with artifacts := db.artifacts ++ [a] }
      a.opportunity_id a.phase)
  else
    .error .NotFound

/-- Fetch an artifact by id; an absent id is `NotFound`. -/
def getArtifact (db : DB) (artId : String) : Except DomainError ArtifactRow :=
  match db.artifacts.find? (fun a => a.id = artId) with
  | some a => .ok a
  | none => .error .NotFound

/-- Deletion of an opportunity with the schema's foreign-key actions:
`artifacts` and `phase_progress` rows referencing it are removed
(`ON DELETE CASCADE`), and `active_opportunity.opportunity_id` pointers to it
become NULL (`ON DELETE SET NULL`). -/
def deleteOpportunity (db : DB) (oppId : String) : DB :=
  { opportunities := db.opportunities.filter (fun o => !(o.id == oppId))
    phase_progress := db.phase_progress.filter (fun p => !(p.opportunity_id == oppId))
    artifacts := db.artifacts.filter (fun a => !(a.opportunity_id == oppId))
    active_opportunity := db.active_opportunity.map (fun r =>
      if r.opportunity_id = some oppId then { r with opportunity_id := none } else r) }

/-- The owner's active pointer, if any: the owner's `active_opportunity` row's
nullable `opportunity_id`. -/
def getActive (db : DB) (ownerId : String) : Option String :=
  (db.active_opportunity.find? (fun r => r.user_id = ownerId)).bind
    (fun r => r.opportunity_id)

/-- Modelled from the spec: the Engagement Service `getActiveContext`
operation (backend application code absent).  An empty or dangling pointer
is the well-defined "no active opportunity" result `none`, never an error. -/
def getActiveContext (db : DB) (ownerId : String) :
    Except DomainError (Option (OpportunityRow × List ArtifactRow)) :=
  match getActive db ownerId with
  | none => .ok none
  | some oid =>
      match db.opportunities.find? (fun o => o.id = oid ∧ o.user_id = ownerId) with
      | some o => .ok (some (o, db.artifacts.filter (fun a => a.opportunity_id = oid)))
      | none => .ok none

/-- Modelled from the spec: the Active-Opportunity Tracker `activate`
operation (backend application code absent).  `NotFound` if the opportunity
does not exist or is not owned by `ownerId`; otherwise an upsert into
`active_opportunity`, whose `UNIQUE(user_id)` constraint the schema declares. -/
def activate (db : DB) (ownerId oppId : String) : Except DomainError DB :=
  if db.opportunities.any (fun o => o.id = oppId ∧ o.user_id = ownerId) then
    if db.active_opportunity.any (fun r => r.user_id = ownerId) then
      .ok { db with
        active_opportunity := db.active_opportunity.map (fun r =>
          if r.user_id = ownerId then { r with opportunity_id := some oppId } else r) }
    else
      .ok { db with
        active_opportunity := ⟨ownerId, some oppId⟩ :: db.active_opportunity }
  else
    .error .NotFound

/-- Modelled from the spec: the phase-transition bookkeeping of the phase
state machine (backend application code absent; the defined phase set and
the unrestricted jump behaviour come from the `PHASES` list and
`handleMoveToPhase` in the opportunity drawer).  A target outside the
defined set is `InvalidPhaseError`; otherwise `current_phase` moves to the
target, the left phase goes `in_progress → completed`, the entered phase
goes `not_started → in_progress` with its `start_date` set on first entry
only, and artifact rows are untouched. -/
def changePhase (db : DB) (now : Nat) (oppId targetPhase : String) : Except DomainError DB :=
  if targetPhase ∈ PHASE_ORDER then
    match db.opportunities.find? (fun o => o.id = oppId) with
    | none => .error .NotFound
    | some opp =>
        let oldPhase := opp.current_phase
        .ok { db with
          opportunities := db.opportunities.map (fun o =>
            if o.id = oppId then { o with current_phase := targetPhase } else o)
          phase_progress := db.phase_progress.map (fun r =>
            if r.opportunity_id = oppId ∧ r.phase = oldPhase ∧ r.status = "in_progress" then
              { r with status := "completed", end_date := some now }
            else if r.opportunity_id = oppId ∧ r.phase = targetPhase ∧ r.status = "not_started" then
              { r with status := "in_progress", start_date := some now }
            else r) }
  else
    .error .InvalidPhaseError

/-! ## Row-level security (multi-user schema) -/

/-- RLS policy on `opportunities`: `USING (auth.uid() = user_id)` for
SELECT/UPDATE/DELETE and `WITH CHECK` for INSERT. -/
def oppVisible (uid : String) (o : OpportunityRow) : Bool := o.user_id = uid

/-- RLS policy on `artifacts`: visibility through opportunity ownership,
`EXISTS (SELECT 1 FROM opportunities WHERE opportunities.id =
artifacts.opportunity_id AND opportunities.user_id = auth.uid())`. -/
def artifactVisible (db : DB) (uid : String) (a : ArtifactRow) : Bool :=
  db.opportunities.any (fun o => o.id = a.opportunity_id ∧ o.user_id = uid)

/-- RLS policy on `phase_progress`: visibility through opportunity
ownership, same EXISTS subquery shape as for artifacts. -/
def ppVisible (db : DB) (uid : String) (p : PhaseProgressRow) : Bool :=
  db.opportunities.any (fun o => o.id = p.opportunity_id ∧ o.user_id = uid)

/-- RLS policy on `active_opportunity`: `USING (auth.uid() = user_id)`. -/
def activeVisible (uid : String) (r : ActiveOpportunityRow) : Bool := r.user_id = uid

/-- What a SELECT on `opportunities` returns for caller `uid` under RLS. -/
def listOpportunities (db : DB) (uid : String) : List OpportunityRow :=
  db.opportunities.filter (oppVisible uid)

/-- What a SELECT on `artifacts` returns for caller `uid` under RLS. -/
def listArtifacts (db : DB) (uid : String) : List ArtifactRow :=
  db.artifacts.filter (artifactVisible db uid)

/-- What a SELECT on `phase_progress` returns for caller `uid` under RLS. -/
def listPhaseProgress (db : DB) (uid : String) : List PhaseProgressRow :=
  db.phase_progress.filter (ppVisible db uid)

/-- What a SELECT on `active_opportunity` returns for caller `uid` under RLS. -/
def listActive (db : DB) (uid : String) : List ActiveOpportunityRow :=
  db.active_opportunity.filter (activeVisible uid)

/-- The database restricted to the rows the RLS policies make visible to
`uid`: the state a run would have if every other owner's data were absent. -/
def eraseTo (uid : String) (db : DB) : DB :=
  { opportunities := db.opportunities.filter (oppVisible uid)
    phase_progress := db.phase_progress.filter (ppVisible db uid)
    artifacts := db.artifacts.filter (artifactVisible db uid)
    active_opportunity := db.active_opportunity.filter (activeVisible uid) }

/-- DELETE on `opportunities` issued by caller `uid` under RLS: the DELETE
policy's `USING (auth.uid() = user_id)` means the statement only removes the
row when `uid` owns it, and only then do the foreign-key actions fire. -/
def deleteOpportunityAs (db : DB) (uid oppId : String) : DB :=
  if db.opportunities.any (fun o => o.id = oppId ∧ o.user_id = uid) then
    deleteOpportunity db oppId
  else db

/-! ## Column-level NOT NULL constraints -/

/-- The caller-supplied text columns of an `opportunities` INSERT (the
remaining columns carry schema defaults).  A column with no NOT NULL
constraint is `Option`-valued. -/
structure OpportunityInsert where
  id : String
  name : Option String
  client_name : Option String
  description : Option String
deriving DecidableEq, Repr

/-- Whether the INSERT satisfies the `opportunities` NOT NULL constraints:
`name` and `client_name` are declared NOT NULL, `description` is not. -/
def opportunityInsertOk (r : OpportunityInsert) : Bool :=
  r.name.isSome && r.client_name.isSome

/-- The caller-supplied columns of an `artifacts` INSERT. -/
structure ArtifactInsert where
  id : String
  opportunity_id : String
  title : Option String
  content : Option String
  artifact_type : Option String
  created_by : Option String
deriving DecidableEq, Repr

/-- Whether the INSERT satisfies the `artifacts` NOT NULL constraints:
`title`, `content` and `artifact_type` are declared NOT NULL, `created_by`
is not. -/
def artifactInsertOk (r : ArtifactInsert) : Bool :=
  r.title.isSome && r.content.isSome && r.artifact_type.isSome

/-! ## Concrete states used by witnesses -/

/-- The empty database. -/
def emptyDB : DB := ⟨[], [], [], []⟩

/-- A sample opportunity row (Scenario A of the spec). -/
def demoOpp : OpportunityRow :=
  { id := "o1"
    user_id := "u1"
    name := "Acme Transformation"
    client_name := "Acme Corp"
    description := some "Digital transformation"
    current_phase := "pre_assessment"
    status := "active"
    created_at := 0
    context_summary := ""
    stakeholders := []
    key_insights := [] }

/-- A sample database holding `demoOpp`, its four pre-populated
phase-progress rows, and an active pointer for its owner. -/
def demoDb : DB :=
  { opportunities := [demoOpp]
    phase_progress := initialPhaseProgress "o1" 0
    artifacts := []
    active_opportunity := [⟨"u1", some "o1"⟩] }

/-- A sample artifact filed under the pre-assessment phase of `demoOpp`
(Scenario B of the spec). -/
def demoArtifact : ArtifactRow :=
  { id := "a1"
    opportunity_id := "o1"
    title := "Manual approval bottleneck"
    content := "Approvals take two weeks"
    artifact_type := "pain_point"
    phase := "pre_assessment"
    created_by := some "u1"
    created_at := 1
    tags := ["urgent"] }

/-- The database produced by Scenario A's creation on the empty database:
the opportunity plus its four pre-populated phase-progress rows. -/
def createdDb : DB :=
  { opportunities := [demoOpp]
    phase_progress := initialPhaseProgress "o1" 0
    artifacts := []
    active_opportunity := [] }

/-! ## Theorems -/

/-- C10: at the durable storage layer a NULL `description` is accepted on
`opportunities` (NOT NULL covers `name` and `client_name`, not
`description`), and a NULL `created_by` is accepted on `artifacts`; the
non-empty-text requirement is enforced solely by the validation layer, as a
whitespace-only triple passes the column constraints but fails
`CreateOpportunityModal.validate`. -/
theorem c10_nullability :
    (∀ id name cn, opportunityInsertOk ⟨id, some name, some cn, none⟩ = true) ∧
    (∀ r : OpportunityInsert, opportunityInsertOk { r with name := none } = false) ∧
    (∀ r : OpportunityInsert, opportunityInsertOk { r with client_name := none } = false) ∧
    (∀ id oid t c ty, artifactInsertOk ⟨id, oid, some t, some c, some ty, none⟩ = true) ∧
    (∀ r : ArtifactInsert, artifactInsertOk { r with title := none } = false) ∧
    (∀ r : ArtifactInsert, artifactInsertOk { r with content := none } = false) ∧
    opportunityInsertOk ⟨"o1", some " ", some " ", some " "⟩ = true ∧
    validateOpportunityForm " " " " " " = false := by
  refine ⟨fun _ _ _ => rfl, fun r => ?_, fun r => ?_, fun _ _ _ _ _ => rfl,
    fun r => ?_, fun r => ?_, by decide, by decide⟩ <;>
    simp [opportunityInsertOk, artifactInsertOk]

/-- C4: `createOpportunity` fails with `ValidationError` (storing nothing)
whenever `name`, `clientName` or `description` trims to the empty string,
and succeeds whenever all three trim to a non-empty string; the gate is the
one in `CreateOpportunityModal.validate`. -/
theorem c4_createOpportunity_validation
    (db : DB) (now : Nat) (userId id name clientName description : String)
    (stakeholders : List String) :
    ((jsTrim name = "" ∨ jsTrim clientName = "" ∨ jsTrim description = "") →
      createOpportunity db now userId id name clientName description stakeholders
        = .error .ValidationError) ∧
    (¬ jsTrim name = "" → ¬ jsTrim clientName = "" → ¬ jsTrim description = "" →
      ∃ opp db', createOpportunity db now userId id name clientName description stakeholders
        = .ok (opp, db')) := by
  constructor
  · intro h
    unfold createOpportunity validateOpportunityForm
    rcases h with h | h | h <;> simp [h]
  · intro h1 h2 h3
    unfold createOpportunity validateOpportunityForm
    simp [h1, h2, h3]

/-- Closed witness for C4 at concrete inputs: a whitespace-only name is
rejected, Scenario A's input is accepted. -/
theorem c4_witness :
    createOpportunity emptyDB 0 "u1" "o1" "  " "Acme Corp" "Digital transformation" []
      = .error .ValidationError ∧
    ∃ opp db', createOpportunity emptyDB 0 "u1" "o1" "Acme Transformation" "Acme Corp"
      "Digital transformation" [] = .ok (opp, db') := by
  constructor
  · exact (c4_createOpportunity_validation emptyDB 0 "u1" "o1" "  " "Acme Corp"
      "Digital transformation" []).1 (Or.inl (by decide))
  · exact (c4_createOpportunity_validation emptyDB 0 "u1" "o1" "Acme Transformation"
      "Acme Corp" "Digital transformation" []).2 (by decide) (by decide) (by decide)

/-- C9 fails as stated: the tag list built by `AddArtifactModal.handleSubmit`
keeps duplicate labels (`"urgent,urgent"` yields two entries) and is
order-sensitive (`"a,b"` and `"b,a"` store different lists). -/
theorem c9_counterexample :
    ¬ (parseTags "urgent,urgent").Nodup ∧
    ¬ parseTags "a,b" = parseTags "b,a" := by decide

/-- C9 amended: tags are parsed by splitting the input on commas, trimming
each piece and dropping empty pieces; the stored list is a sublist of the
trimmed pieces that preserves their order and multiplicity (each non-empty
label occurs exactly as often as the pieces trimming to it), so duplicates
are kept and order is significant. -/
theorem c9_amended (s t : String) (h : ¬ t = "") :
    List.Sublist (parseTags s) ((jsSplitComma s).map jsTrim) ∧
    (parseTags s).count t = ((jsSplitComma s).map jsTrim).count t ∧
    (t ∈ parseTags s ↔ t ∈ (jsSplitComma s).map jsTrim) := by
  refine ⟨List.filter_sublist _, ?_, ?_⟩
  · unfold parseTags
    apply List.count_filter
    simp [h]
  · unfold parseTags
    simp [List.mem_filter, h]

/-- Closed witness for C9's amended statement at `s = "urgent, urgent"`,
`t = "urgent"`. -/
theorem c9_witness :
    List.Sublist (parseTags "urgent, urgent") ((jsSplitComma "urgent, urgent").map jsTrim) ∧
    (parseTags "urgent, urgent").count "urgent"
      = ((jsSplitComma "urgent, urgent").map jsTrim).count "urgent" ∧
    ("urgent" ∈ parseTags "urgent, urgent" ↔
      "urgent" ∈ (jsSplitComma "urgent, urgent").map jsTrim) :=
  c9_amended "urgent, urgent" "urgent" (by decide)

/-- Consistency of the stored phase-level counters with the artifact rows:
every `phase_progress` row's `artifacts_count` equals the number of artifact
rows filed under its `(opportunity_id, phase)` key. -/
def ppConsistent (db : DB) : Prop :=
  ∀ r ∈ db.phase_progress,
    r.artifacts_count =
      ((db.artifacts.filter (fun a =>
        a.opportunity_id = r.opportunity_id ∧ a.phase = r.phase)).length : Int)

/-- Filing an artifact and running `increment_artifacts_count` on its key
preserves the consistency of every phase-level counter. -/
theorem ppConsistent_add (db : DB) (a : ArtifactRow) (hcons : ppConsistent db) :
    ppConsistent (increment_artifacts_count { db with artifacts := db.artifacts ++ [a] }
      a.opportunity_id a.phase) := by
  intro r' hr'
  simp only [increment_artifacts_count, List.mem_map] at hr'
  obtain ⟨r, hr, hmap⟩ := hr'
  have hcr := hcons r hr
  subst hmap
  by_cases hk : r.opportunity_id = a.opportunity_id ∧ r.phase = a.phase
  · simp only [if_pos hk, increment_artifacts_count]
    simp only [List.filter_append, List.length_append]
    have h1 : (List.filter (fun x =>
        decide (x.opportunity_id = r.opportunity_id ∧ x.phase = r.phase)) [a]).length = 1 := by
      have : a.opportunity_id = r.opportunity_id ∧ a.phase = r.phase := ⟨hk.1.symm, hk.2.symm⟩
      simp [this]
    simp only [h1]
    rw [hcr]
    push_cast
    ring
  · simp only [if_neg hk, increment_artifacts_count]
    simp only [List.filter_append, List.length_append]
    have h0 : (List.filter (fun x =>
        decide (x.opportunity_id = r.opportunity_id ∧ x.phase = r.phase)) [a]).length = 0 := by
      have : ¬ (a.opportunity_id = r.opportunity_id ∧ a.phase = r.phase) := by
        intro hh
        exact hk ⟨hh.1.symm, hh.2.symm⟩
      simp [this]
    simp only [h0]
    rw [hcr]
    push_cast
    ring

/-- C1 fails as stated: filing an artifact updates the matching
`phase_progress` counter, but the `opportunities` table has no
`artifacts_count` column at all, so no opportunity-level counter exists to
be incremented — the opportunity row is bit-for-bit unchanged. -/
theorem c1_counterexample :
    "artifacts_count" ∉ opportunitiesColumns ∧
    ∃ db', addArtifact demoDb demoArtifact = .ok db' ∧
      db'.opportunities = demoDb.opportunities ∧
      db'.phase_progress.map (fun r => r.artifacts_count) = [1, 0, 0, 0] := by
  refine ⟨by decide, _, rfl, by decide, by decide⟩

/-- C1 amended: `addArtifact` increments the matching
`PhaseProgress.artifactsCount` through the single atomic UPDATE expression
of `increment_artifacts_count` (count := count + 1 on exactly the rows
keyed by the artifact's opportunity and phase, all other rows and fields
untouched), and this keeps every phase counter equal to the true number of
matching artifacts; the Opportunity-level `artifactsCount` is not a stored
column (`opportunities` has none), so it is necessarily derived, and its
derived value also rises by exactly one. -/
theorem c1_amended (db : DB) (a : ArtifactRow) (db' : DB)
    (h : addArtifact db a = .ok db') :
    "artifacts_count" ∉ opportunitiesColumns ∧
    db'.opportunities = db.opportunities ∧
    db'.active_opportunity = db.active_opportunity ∧
    List.Forall₂ (fun r r' : PhaseProgressRow =>
      (r.opportunity_id = a.opportunity_id ∧ r.phase = a.phase →
        r'.artifacts_count = r.artifacts_count + 1 ∧ r'.status = r.status ∧
        r'.opportunity_id = r.opportunity_id ∧ r'.phase = r.phase ∧
        r'.start_date = r.start_date ∧ r'.end_date = r.end_date ∧
        r'.completion_percentage = r.completion_percentage) ∧
      (¬ (r.opportunity_id = a.opportunity_id ∧ r.phase = a.phase) → r' = r))
      db.phase_progress db'.phase_progress ∧
    oppArtifactsCount db' a.opportunity_id = oppArtifactsCount db a.opportunity_id + 1 ∧
    (db'.artifacts.filter (fun x => x.opportunity_id = a.opportunity_id ∧ x.phase = a.phase)).length
      = (db.artifacts.filter (fun x => x.opportunity_id = a.opportunity_id ∧ x.phase = a.phase)).length + 1 ∧
    (ppConsistent db → ppConsistent db') := by
  unfold addArtifact at h
  split at h
  case isFalse => exact absurd h (by simp)
  case isTrue hmem =>
    have hdb' : db' = increment_artifacts_count
        { db with artifacts := db.artifacts ++ [a] } a.opportunity_id a.phase := by
      injection h with h'
      exact h'.symm
    subst hdb'
    refine ⟨by decide, rfl, rfl, ?_, ?_, ?_, ?_⟩
    · unfold increment_artifacts_count
      simp only [List.forall₂_map_right_iff]
      rw [List.forall₂_same]
      intro r _
      constructor
      · intro hk
        simp [hk]
      · intro hk
        simp [hk]
    · unfold increment_artifacts_count oppArtifactsCount
      simp [List.filter_append]
    · unfold increment_artifacts_count
      simp [List.filter_append]
    · exact fun hcons => ppConsistent_add db a hcons

/-- Closed witness for C1's amended statement: Scenario B's artifact added
to the Scenario A state. -/
theorem c1_witness :
    ∃ db', addArtifact demoDb demoArtifact = .ok db' ∧
      db'.opportunities = demoDb.opportunities ∧
      oppArtifactsCount db' "o1" = oppArtifactsCount demoDb "o1" + 1 := by
  refine ⟨_, rfl, ?_, ?_⟩
  · exact ((c1_amended demoDb demoArtifact _ rfl).2).1
  · exact ((((((c1_amended demoDb demoArtifact _ rfl).2).2).2).2).1)

/-- C5: storing a second `phase_progress` row for an existing
`(opportunityId, phase)` pair fails with `Conflict` (the schema declares
`UNIQUE(opportunity_id, phase)`), the error carrying no new state; and
`createOpportunity` creates exactly one `phase_progress` row per defined
phase together with the opportunity. -/
theorem c5_phase_progress_uniqueness
    (db : DB) (row : PhaseProgressRow) (now : Nat)
    (userId id n c d : String) (st : List String) (opp : OpportunityRow) (db' : DB) :
    ((∃ r ∈ db.phase_progress, r.opportunity_id = row.opportunity_id ∧ r.phase = row.phase) →
       insertPhaseProgress db row = .error .Conflict) ∧
    ((∀ r ∈ db.phase_progress, ¬ r.opportunity_id = id) →
     createOpportunity db now userId id n c d st = .ok (opp, db') →
     ∀ ph ∈ PHASE_ORDER,
       (db'.phase_progress.filter (fun r => r.opportunity_id = id ∧ r.phase = ph)).length = 1) := by
  constructor
  · intro ⟨r, hr, hk⟩
    unfold insertPhaseProgress
    have : db.phase_progress.any (fun r' =>
        r'.opportunity_id = row.opportunity_id ∧ r'.phase = row.phase) = true := by
      rw [List.any_eq_true]
      exact ⟨r, hr, by simp [hk.1, hk.2]⟩
    rw [if_pos this]
  · intro hfresh hok ph hph
    unfold createOpportunity at hok
    split at hok
    case isFalse => exact absurd hok (by simp)
    case isTrue =>
      simp only [Except.ok.injEq, Prod.mk.injEq] at hok
      obtain ⟨-, hdb⟩ := hok
      subst hdb
      simp only [List.filter_append, List.length_append]
      have hold : (db.phase_progress.filter
          (fun r => decide (r.opportunity_id = id ∧ r.phase = ph))).length = 0 := by
        rw [List.length_eq_zero, List.filter_eq_nil]
        intro r hr
        simp only [decide_eq_true_eq, not_and]
        intro h1
        exact absurd h1 (hfresh r hr)
      rw [hold]
      simp only [PHASE_ORDER, List.mem_cons, List.not_mem_nil, or_false] at hph
      rcases hph with rfl | rfl | rfl | rfl <;> simp [initialPhaseProgress, PHASE_ORDER]

/-- The pre-assessment phase-progress row of `demoDb`. -/
def ppRowPre : PhaseProgressRow :=
  { opportunity_id := "o1"
    phase := "pre_assessment"
    status := "in_progress"
    start_date := some 0
    end_date := none
    key_activities := []
    artifacts_count := 0
    completion_percentage := 0 }

/-- A second row for the same `(opportunityId, phase)` key as `ppRowPre`. -/
def ppRowDup : PhaseProgressRow :=
  { ppRowPre with status := "not_started", start_date := none }

/-- Closed witness for C5: a duplicate pre-assessment row for `demoDb`'s
opportunity conflicts, and Scenario A's creation yields one row per phase. -/
theorem c5_witness :
    insertPhaseProgress demoDb ppRowDup = .error .Conflict ∧
    ∀ ph ∈ PHASE_ORDER,
      (createdDb.phase_progress.filter
        (fun r => r.opportunity_id = "o1" ∧ r.phase = ph)).length = 1 := by
  constructor
  · refine (c5_phase_progress_uniqueness demoDb ppRowDup 0 "u1" "o1" "n" "c" "d" []
      demoOpp demoDb).1 ?_
    exact ⟨ppRowPre, by decide, by decide⟩
  · exact (c5_phase_progress_uniqueness emptyDB ppRowDup
      0 "u1" "o1" "Acme Transformation" "Acme Corp" "Digital transformation" []
      demoOpp createdDb).2 (by simp [emptyDB]) rfl

/-- C6: for every valid creation input the returned opportunity starts in
the first phase of the fixed ordered set (`pre_assessment`), has status
`active` and a derived artifact count of zero, and its pre-populated
`phase_progress` rows have the first phase `in_progress` and every other
phase `not_started`. -/
theorem c6_create_initial_state
    (db : DB) (now : Nat) (userId id n c d : String) (st : List String)
    (opp : OpportunityRow) (db' : DB)
    (h : createOpportunity db now userId id n c d st = .ok (opp, db'))
    (hart : ∀ a ∈ db.artifacts, ¬ a.opportunity_id = id)
    (hpp : ∀ r ∈ db.phase_progress, ¬ r.opportunity_id = id) :
    PHASE_ORDER.head? = some "pre_assessment" ∧
    opp.id = id ∧
    opp.current_phase = "pre_assessment" ∧
    opp.status = "active" ∧
    oppArtifactsCount db' id = 0 ∧
    (∀ r ∈ db'.phase_progress, r.opportunity_id = id →
       (r.phase = "pre_assessment" → r.status = "in_progress") ∧
       (¬ r.phase = "pre_assessment" → r.status = "not_started")) := by
  unfold createOpportunity at h
  split at h
  case isFalse => exact absurd h (by simp)
  case isTrue =>
    simp only [Except.ok.injEq, Prod.mk.injEq] at h
    obtain ⟨hopp, hdb⟩ := h
    subst hdb
    refine ⟨rfl, by rw [← hopp], by rw [← hopp], by rw [← hopp], ?_, ?_⟩
    · unfold oppArtifactsCount
      rw [List.length_eq_zero, List.filter_eq_nil]
      intro a ha
      simp only [decide_eq_true_eq]
      exact hart a ha
    · intro r hr hrid
      rcases List.mem_append.mp hr with hr | hr
      · exact absurd hrid (hpp r hr)
      · unfold initialPhaseProgress at hr
        rcases List.mem_map.mp hr with ⟨ph, _, rfl⟩
        constructor
        · intro hphase
          simp only at hphase
          simp [hphase]
        · intro hphase
          simp only at hphase
          simp [if_neg hphase]

/-- Closed witness for C6 at Scenario A's input. -/
theorem c6_witness :
    PHASE_ORDER.head? = some "pre_assessment" ∧
    demoOpp.id = "o1" ∧
    demoOpp.current_phase = "pre_assessment" ∧
    demoOpp.status = "active" ∧
    oppArtifactsCount createdDb "o1" = 0 ∧
    (∀ r ∈ createdDb.phase_progress, r.opportunity_id = "o1" →
       (r.phase = "pre_assessment" → r.status = "in_progress") ∧
       (¬ r.phase = "pre_assessment" → r.status = "not_started")) :=
  c6_create_initial_state emptyDB 0 "u1" "o1" "Acme Transformation" "Acme Corp"
    "Digital transformation" [] demoOpp createdDb rfl
    (by simp [emptyDB]) (by simp [emptyDB])

/-! ## Helper lemmas on the active-pointer table -/

/-- The user ids of the active-pointer table; `UNIQUE(user_id)` says this
list has no duplicates. -/
def activeUserIds (db : DB) : List String :=
  db.active_opportunity.map (fun r => r.user_id)

/-- A `find?` is the head of the corresponding `filter`. -/
theorem find?_eq_head?_filter {α : Type} (p : α → Bool) (l : List α) :
    l.find? p = (l.filter p).head? := by
  induction l with
  | nil => rfl
  | cons a l ih =>
    by_cases h : p a
    · rw [List.find?_cons_of_pos _ h, List.filter_cons_of_pos h]
      rfl
    · rw [List.find?_cons_of_neg _ (by simp [h]), List.filter_cons_of_neg (by simp [h]), ih]

/-- Upserting the owner's pointer maps exactly the owner's rows. -/
theorem upsert_filter_eq (l : List ActiveOpportunityRow) (owner oppId : String) :
    (l.map (fun r => if r.user_id = owner then { r with opportunity_id := some oppId } else r)).filter
        (fun r => r.user_id = owner)
      = (l.filter (fun r => r.user_id = owner)).map
          (fun r => { r with opportunity_id := some oppId }) := by
  induction l with
  | nil => rfl
  | cons a l ih =>
    by_cases h : a.user_id = owner
    · simp only [List.map_cons, if_pos h, List.filter_cons]
      simp [h, ih]
    · simp only [List.map_cons, if_neg h, List.filter_cons]
      simp [h, ih]

/-- Upserting the owner's pointer leaves every other owner's rows as they
were. -/
theorem upsert_filter_other (l : List ActiveOpportunityRow) (owner oppId v : String)
    (hv : ¬ v = owner) :
    (l.map (fun r => if r.user_id = owner then { r with opportunity_id := some oppId } else r)).filter
        (fun r => r.user_id = v)
      = l.filter (fun r => r.user_id = v) := by
  induction l with
  | nil => rfl
  | cons a l ih =>
    by_cases h : a.user_id = owner
    · have hav : ¬ a.user_id = v := by
        rw [h]
        intro hh
        exact hv hh.symm
      have hov : ¬ owner = v := fun hh => hv hh.symm
      simp only [List.map_cons, if_pos h, List.filter_cons]
      simp [h, hav, hov, ih]
    · simp only [List.map_cons, if_neg h, List.filter_cons]
      by_cases hav : a.user_id = v
      · simp [hav, ih]
      · simp [hav, ih]

/-- Upserting preserves the user-id column. -/
theorem upsert_map_userIds (l : List ActiveOpportunityRow) (owner oppId : String) :
    (l.map (fun r => if r.user_id = owner then { r with opportunity_id := some oppId } else r)).map
        (fun r => r.user_id)
      = l.map (fun r => r.user_id) := by
  induction l with
  | nil => rfl
  | cons a l ih =>
    by_cases h : a.user_id = owner
    · simp [if_pos h, ih, h]
    · simp [if_neg h, ih]

/-- Upserting the owner's pointer fixes the complement of the owner's rows. -/
theorem upsert_filter_not (l : List ActiveOpportunityRow) (owner oppId : String) :
    (l.map (fun r => if r.user_id = owner then { r with opportunity_id := some oppId } else r)).filter
        (fun r => !(r.user_id == owner))
      = l.filter (fun r => !(r.user_id == owner)) := by
  induction l with
  | nil => rfl
  | cons a l ih =>
    by_cases h : a.user_id = owner
    · simp only [List.map_cons, if_pos h, List.filter_cons]
      simp [h, ih]
    · simp only [List.map_cons, if_neg h, List.filter_cons]
      simp [h, ih]

/-- Under `UNIQUE(user_id)`, an owner who has a row has exactly one. -/
theorem filter_userId_singleton (l : List ActiveOpportunityRow) (owner : String)
    (hnodup : (l.map (fun r => r.user_id)).Nodup)
    (hany : l.any (fun r => r.user_id = owner) = true) :
    ∃ r0, l.filter (fun r => r.user_id = owner) = [r0] ∧ r0.user_id = owner := by
  induction l with
  | nil => simp at hany
  | cons a l ih =>
    simp only [List.map_cons, List.nodup_cons] at hnodup
    by_cases h : a.user_id = owner
    · refine ⟨a, ?_, h⟩
      rw [List.filter_cons_of_pos (by simp [h])]
      have : l.filter (fun r => r.user_id = owner) = [] := by
        rw [List.filter_eq_nil_iff]
        intro r hr
        simp only [decide_eq_true_eq]
        intro hru
        exact hnodup.1 (List.mem_map.mpr ⟨r, hr, by rw [hru, h]⟩)
      rw [this]
    · rw [List.any_cons] at hany
      have hl : l.any (fun r => r.user_id = owner) = true := by
        rcases Bool.or_eq_true_iff.mp hany with hh | hh
        · exact absurd (of_decide_eq_true hh) h
        · exact hh
      obtain ⟨r0, hfil, hr0⟩ := ih hnodup.2 hl
      exact ⟨r0, by rw [List.filter_cons_of_neg (by simp [h]), hfil], hr0⟩

/-- C2: a successful `activate` leaves its owner with exactly one pointer
row, pointing at the requested opportunity (upsert, not append); every
other owner's rows and lookup results are untouched, and the
`UNIQUE(user_id)` shape (no duplicate owner) is preserved. -/
theorem c2_active_upsert (db : DB) (ownerId oppId : String) (db' : DB)
    (hnodup : (activeUserIds db).Nodup)
    (h : activate db ownerId oppId = .ok db') :
    (db'.active_opportunity.filter (fun r => r.user_id = ownerId)).map
        (fun r => r.opportunity_id) = [some oppId] ∧
    db'.active_opportunity.filter (fun r => !(r.user_id == ownerId))
      = db.active_opportunity.filter (fun r => !(r.user_id == ownerId)) ∧
    (activeUserIds db').Nodup ∧
    getActive db' ownerId = some oppId ∧
    (∀ v, ¬ v = ownerId → getActive db' v = getActive db v) := by
  unfold activate at h
  split at h
  case isFalse => exact absurd h (by simp)
  case isTrue howner =>
    split at h
    case isTrue hany =>
      simp only [Except.ok.injEq] at h
      subst h
      obtain ⟨r0, hfil, hr0⟩ := filter_userId_singleton _ _ hnodup hany
      refine ⟨?_, ?_, ?_, ?_, ?_⟩
      · rw [upsert_filter_eq, hfil]
        rfl
      · exact upsert_filter_not db.active_opportunity ownerId oppId
      · show ((db.active_opportunity.map _).map _).Nodup
        rw [upsert_map_userIds]
        exact hnodup
      · unfold getActive
        rw [find?_eq_head?_filter, upsert_filter_eq, hfil]
        rfl
      · intro v hv
        unfold getActive
        rw [find?_eq_head?_filter, find?_eq_head?_filter, upsert_filter_other _ _ _ _ hv]
    case isFalse hany =>
      simp only [Except.ok.injEq] at h
      subst h
      have hnone : db.active_opportunity.filter (fun r => r.user_id = ownerId) = [] := by
        rw [List.filter_eq_nil_iff]
        intro r hr
        simp only [decide_eq_true_eq]
        intro hru
        rw [List.any_eq_true] at hany
        exact hany ⟨r, hr, by simp [hru]⟩
      have hnotin : ¬ ownerId ∈ db.active_opportunity.map (fun r => r.user_id) := by
        intro hmem
        rcases List.mem_map.mp hmem with ⟨r, hr, hru⟩
        rw [List.any_eq_true] at hany
        exact hany ⟨r, hr, by simp [hru]⟩
      refine ⟨?_, ?_, ?_, ?_, ?_⟩
      · rw [List.filter_cons_of_pos (by simp), hnone]
        rfl
      · rw [List.filter_cons_of_neg (by simp)]
      · exact List.Nodup.cons hnotin hnodup
      · unfold getActive
        rw [List.find?_cons_of_pos _ (by simp)]
        rfl
      · intro v hv
        unfold getActive
        rw [List.find?_cons_of_neg _ (by simp; intro hh; exact hv hh.symm)]

/-- A second opportunity belonging to a second user. -/
def demoOpp2 : OpportunityRow :=
  { demoOpp with id := "o2", user_id := "u2", name := "Beta Rollout", client_name := "Beta Inc" }

/-- A database with two owners, each owning one opportunity and holding one
active pointer. -/
def twoUserDb : DB :=
  { opportunities := [demoOpp, demoOpp2]
    phase_progress := initialPhaseProgress "o1" 0 ++ initialPhaseProgress "o2" 0
    artifacts := []
    active_opportunity := [⟨"u1", some "o1"⟩, ⟨"u2", some "o2"⟩] }

/-- Closed witness for C2: user 1 re-activating their opportunity in
`twoUserDb` replaces their pointer and leaves user 2's untouched. -/
theorem c2_witness :
    ∃ db', activate twoUserDb "u1" "o1" = .ok db' ∧
      (db'.active_opportunity.filter (fun r => r.user_id = "u1")).map
          (fun r => r.opportunity_id) = [some "o1"] ∧
      (activeUserIds db').Nodup ∧
      getActive db' "u1" = some "o1" ∧
      getActive db' "u2" = getActive twoUserDb "u2" := by
  refine ⟨_, rfl, ?_, ?_, ?_, ?_⟩
  · exact (c2_active_upsert twoUserDb "u1" "o1" _ (by decide) rfl).1
  · exact (c2_active_upsert twoUserDb "u1" "o1" _ (by decide) rfl).2.2.1
  · exact (c2_active_upsert twoUserDb "u1" "o1" _ (by decide) rfl).2.2.2.1
  · exact (c2_active_upsert twoUserDb "u1" "o1" _ (by decide) rfl).2.2.2.2 "u2" (by decide)

/-! ## Deletion cascade -/

/-- After nulling every pointer at `oppId`, an owner whose pointer was
`oppId` reads back no pointer at all. -/
theorem find?_bind_delete (l : List ActiveOpportunityRow) (ownerId oppId : String)
    (h : (l.find? (fun r => r.user_id = ownerId)).bind (fun r => r.opportunity_id) = some oppId) :
    ((l.map (fun r => if r.opportunity_id = some oppId then { r with opportunity_id := none } else r)).find?
        (fun r => r.user_id = ownerId)).bind (fun r => r.opportunity_id) = none := by
  induction l with
  | nil => exact absurd h (by simp [List.find?])
  | cons a l ih =>
    by_cases hu : a.user_id = ownerId
    · rw [List.find?_cons_of_pos _ (by simp [hu])] at h
      simp only [Option.some_bind] at h
      simp only [List.map_cons, if_pos h]
      rw [List.find?_cons_of_pos _ (by simp [hu])]
      rfl
    · rw [List.find?_cons_of_neg _ (by simp [hu])] at h
      simp only [List.map_cons]
      by_cases hp : a.opportunity_id = some oppId
      · rw [if_pos hp, List.find?_cons_of_neg _ (by simp [hu])]
        exact ih h
      · rw [if_neg hp, List.find?_cons_of_neg _ (by simp [hu])]
        exact ih h

/-- C3: deleting an opportunity cascades — every artifact it owned is gone
(fetching it by id is `NotFound`), every `phase_progress` row keyed to it is
gone, the opportunity row itself is gone, and an owner whose active pointer
referenced it gets the well-defined "no active opportunity" result (`ok
none`), not an error. -/
theorem c3_delete_cascades (db : DB) (oppId ownerId : String)
    (hids : (db.artifacts.map (fun a => a.id)).Nodup) :
    (∀ a ∈ db.artifacts, a.opportunity_id = oppId →
       getArtifact (deleteOpportunity db oppId) a.id = .error .NotFound) ∧
    (∀ p ∈ (deleteOpportunity db oppId).phase_progress, ¬ p.opportunity_id = oppId) ∧
    (∀ o ∈ (deleteOpportunity db oppId).opportunities, ¬ o.id = oppId) ∧
    (getActive db ownerId = some oppId →
       getActiveContext (deleteOpportunity db oppId) ownerId = .ok none) := by
  refine ⟨?_, ?_, ?_, ?_⟩
  · intro a ha haopp
    unfold getArtifact deleteOpportunity
    have hnone : ((db.artifacts.filter (fun b => !(b.opportunity_id == oppId))).find?
        (fun b => b.id = a.id)) = none := by
      rw [List.find?_eq_none]
      intro b hb
      rcases List.mem_filter.mp hb with ⟨hbmem, hbp⟩
      simp only [decide_eq_true_eq]
      intro hbid
      have hba : b = a := List.inj_on_of_nodup_map hids hbmem ha hbid
      rw [hba, haopp] at hbp
      simp at hbp
    simp only [hnone]
  · intro p hp
    unfold deleteOpportunity at hp
    rcases List.mem_filter.mp hp with ⟨-, hpp⟩
    simp only [Bool.not_eq_true'] at hpp
    exact fun hh => by simp [hh] at hpp
  · intro o ho
    unfold deleteOpportunity at ho
    rcases List.mem_filter.mp ho with ⟨-, hop⟩
    simp only [Bool.not_eq_true'] at hop
    exact fun hh => by simp [hh] at hop
  · intro hact
    unfold getActiveContext
    have : getActive (deleteOpportunity db oppId) ownerId = none := by
      unfold getActive at hact ⊢
      exact find?_bind_delete db.active_opportunity ownerId oppId hact
    rw [this]

/-- `demoDb` with Scenario B's artifact filed. -/
def demoDbWithArtifact : DB := { demoDb with artifacts := [demoArtifact] }

/-- Closed witness for C3: deleting opportunity `o1` from
`demoDbWithArtifact` removes its artifact, its phase rows, and user 1's
pointer resolves to "no active opportunity". -/
theorem c3_witness :
    getArtifact (deleteOpportunity demoDbWithArtifact "o1") "a1" = .error .NotFound ∧
    (∀ p ∈ (deleteOpportunity demoDbWithArtifact "o1").phase_progress,
       ¬ p.opportunity_id = "o1") ∧
    getActiveContext (deleteOpportunity demoDbWithArtifact "o1") "u1" = .ok none := by
  refine ⟨?_, ?_, ?_⟩
  · have := (c3_delete_cascades demoDbWithArtifact "o1" "u1" (by decide)).1
      demoArtifact (by decide) (by decide)
    simpa using this
  · exact (c3_delete_cascades demoDbWithArtifact "o1" "u1" (by decide)).2.1
  · exact (c3_delete_cascades demoDbWithArtifact "o1" "u1" (by decide)).2.2.2 (by decide)

/-! ## Phase transitions -/

/-- Updating the current phase of the row found by id updates exactly the
found row in the `find?` result. -/
theorem find?_map_update_phase (l : List OpportunityRow) (oppId target : String)
    (opp : OpportunityRow)
    (hfind : l.find? (fun o => o.id = oppId) = some opp) :
    (l.map (fun o => if o.id = oppId then { o with current_phase := target } else o)).find?
      (fun o => o.id = oppId) = some { opp with current_phase := target } := by
  induction l with
  | nil => exact absurd hfind (by simp [List.find?])
  | cons a l ih =>
    by_cases hid : a.id = oppId
    · rw [List.find?_cons_of_pos _ (by simp [hid])] at hfind
      injection hfind with hfind
      subst hfind
      simp only [List.map_cons, if_pos hid]
      rw [List.find?_cons_of_pos _ (by simp [hid])]
    · rw [List.find?_cons_of_neg _ (by simp [hid])] at hfind
      simp only [List.map_cons, if_neg hid]
      rw [List.find?_cons_of_neg _ (by simp [hid])]
      exact ih hfind

/-- C7: `changePhase` to any member of the defined phase set succeeds from
any current phase (backward moves and skips included, the drawer only
requiring target ≠ current); the phase being left moves to `completed` only
if it was `in_progress` (otherwise its row is untouched), the phase being
entered moves to `in_progress` with `startDate` set if it was `not_started`
(a previously visited phase keeps its row, hence its original `startDate`
and completion, unchanged), rows of other phases and opportunities are
untouched, counters are untouched, and the artifacts already filed under
the left phase remain filed and counted there. -/
theorem c7_changePhase_bookkeeping
    (db : DB) (now : Nat) (oppId target : String) (opp : OpportunityRow)
    (htarget : target ∈ PHASE_ORDER)
    (hfind : db.opportunities.find? (fun o => o.id = oppId) = some opp)
    (hne : ¬ target = opp.current_phase) :
    ∃ db', changePhase db now oppId target = .ok db' ∧
      db'.artifacts = db.artifacts ∧
      (∀ ph : String,
        db'.artifacts.filter (fun a => a.opportunity_id = oppId ∧ a.phase = ph)
          = db.artifacts.filter (fun a => a.opportunity_id = oppId ∧ a.phase = ph)) ∧
      db'.opportunities.find? (fun o => o.id = oppId)
        = some { opp with current_phase := target } ∧
      List.Forall₂ (fun r r' : PhaseProgressRow =>
        r'.opportunity_id = r.opportunity_id ∧
        r'.phase = r.phase ∧
        r'.artifacts_count = r.artifacts_count ∧
        r'.completion_percentage = r.completion_percentage ∧
        (r.opportunity_id = oppId → r.phase = opp.current_phase →
          r.status = "in_progress" → r'.status = "completed") ∧
        (r.opportunity_id = oppId → r.phase = opp.current_phase →
          ¬ r.status = "in_progress" → r' = r) ∧
        (r.opportunity_id = oppId → r.phase = target →
          r.status = "not_started" → r'.status = "in_progress" ∧ r'.start_date = some now) ∧
        (r.opportunity_id = oppId → r.phase = target →
          ¬ r.status = "not_started" → r' = r) ∧
        (¬ r.opportunity_id = oppId → r' = r) ∧
        (¬ r.phase = opp.current_phase → ¬ r.phase = target → r' = r))
        db.phase_progress db'.phase_progress := by
  have hstep : changePhase db now oppId target = .ok
      { db with
        opportunities := db.opportunities.map (fun o =>
          if o.id = oppId then { o with current_phase := target } else o)
        phase_progress := db.phase_progress.map (fun r =>
          if r.opportunity_id = oppId ∧ r.phase = opp.current_phase ∧
              r.status = "in_progress" then
            { r with status := "completed", end_date := some now }
          else if r.opportunity_id = oppId ∧ r.phase = target ∧
              r.status = "not_started" then
            { r with status := "in_progress", start_date := some now }
          else r) } := by
    unfold changePhase
    rw [if_pos htarget, hfind]
  refine ⟨_, hstep, rfl, fun ph => rfl, ?_, ?_⟩
  · exact find?_map_update_phase db.opportunities oppId target opp hfind
  · rw [List.forall₂_map_right_iff, List.forall₂_same]
    intro r _
    by_cases c1 : r.opportunity_id = oppId ∧ r.phase = opp.current_phase ∧
        r.status = "in_progress"
    · rw [if_pos c1]
      refine ⟨rfl, rfl, rfl, rfl, fun _ _ _ => rfl, ?_, ?_, ?_, ?_, ?_⟩
      · intro _ _ hs
        exact absurd c1.2.2 hs
      · intro _ hph _
        exact absurd (hph ▸ c1.2.1) (by rw [hph] at c1; exact fun hh => hne (c1.2.1 ▸ rfl))
      · intro _ hph _
        exact absurd hph (fun hh => hne (hh ▸ c1.2.1))
      · intro hopp
        exact absurd c1.1 hopp
      · intro hph _
        exact absurd c1.2.1 hph
    · rw [if_neg c1]
      by_cases c2 : r.opportunity_id = oppId ∧ r.phase = target ∧ r.status = "not_started"
      · rw [if_pos c2]
        refine ⟨rfl, rfl, rfl, rfl, ?_, ?_, fun _ _ _ => ⟨rfl, rfl⟩, ?_, ?_, ?_⟩
        · intro _ hph _
          exact absurd (hph ▸ c2.2.1) (fun hh => hne hh.symm)
        · intro hopp hph hs
          exact absurd c2.2.1 (fun hh => hne (by rw [← hh, hph]))
        · intro _ _ hs
          exact absurd c2.2.2 hs
        · intro hopp
          exact absurd c2.1 hopp
        · intro _ hph
          exact absurd c2.2.1 hph
      · rw [if_neg c2]
        refine ⟨rfl, rfl, rfl, rfl, ?_, fun _ _ _ => rfl, ?_, fun _ _ _ => rfl,
          fun _ => rfl, fun _ _ => rfl⟩
        · intro hopp hph hs
          exact absurd ⟨hopp, hph, hs⟩ c1
        · intro hopp hph hs
          exact absurd ⟨hopp, hph, hs⟩ c2

/-- Closed witness for C7: Scenario C, moving `demoDbWithArtifact`'s
opportunity from pre-assessment to discovery; the pain-point artifact stays
filed and counted under pre-assessment. -/
theorem c7_witness :
    ∃ db', changePhase demoDbWithArtifact 5 "o1" "discovery" = .ok db' ∧
      db'.artifacts = demoDbWithArtifact.artifacts ∧
      (∀ ph : String,
        db'.artifacts.filter (fun a => a.opportunity_id = "o1" ∧ a.phase = ph)
          = demoDbWithArtifact.artifacts.filter
              (fun a => a.opportunity_id = "o1" ∧ a.phase = ph)) ∧
      db'.opportunities.find? (fun o => o.id = "o1")
        = some { demoOpp with current_phase := "discovery" } ∧
      List.Forall₂ (fun r r' : PhaseProgressRow =>
        r'.opportunity_id = r.opportunity_id ∧
        r'.phase = r.phase ∧
        r'.artifacts_count = r.artifacts_count ∧
        r'.completion_percentage = r.completion_percentage ∧
        (r.opportunity_id = "o1" → r.phase = demoOpp.current_phase →
          r.status = "in_progress" → r'.status = "completed") ∧
        (r.opportunity_id = "o1" → r.phase = demoOpp.current_phase →
          ¬ r.status = "in_progress" → r' = r) ∧
        (r.opportunity_id = "o1" → r.phase = "discovery" →
          r.status = "not_started" → r'.status = "in_progress" ∧ r'.start_date = some 5) ∧
        (r.opportunity_id = "o1" → r.phase = "discovery" →
          ¬ r.status = "not_started" → r' = r) ∧
        (¬ r.opportunity_id = "o1" → r' = r) ∧
        (¬ r.phase = demoOpp.current_phase → ¬ r.phase = "discovery" → r' = r))
        demoDbWithArtifact.phase_progress db'.phase_progress :=
  c7_changePhase_bookkeeping demoDbWithArtifact 5 "o1" "discovery" demoOpp
    (by decide) (by decide) (by decide)

/-! ## Owner scoping under row-level security -/

/-- Filtering twice by the same predicate filters once. -/
theorem filter_filter_self {α : Type} (p : α → Bool) (l : List α) :
    (l.filter p).filter p = l.filter p := by
  induction l with
  | nil => rfl
  | cons a l ih => by_cases h : p a <;> simp [List.filter_cons, h, ih]

/-- Searching inside the rows that satisfy the search predicate finds the
same row. -/
theorem find?_filter_self {α : Type} (p : α → Bool) (l : List α) :
    (l.filter p).find? p = l.find? p := by
  rw [find?_eq_head?_filter, find?_eq_head?_filter, filter_filter_self]

/-- An artifact's RLS visibility for `u` is unchanged when every row not
visible to `u` is erased: the EXISTS witness, if any, is a `u`-owned
opportunity, which survives the erasure. -/
theorem artifactVisible_erase (db : DB) (u : String) (a : ArtifactRow) :
    artifactVisible (eraseTo u db) u a = artifactVisible db u a := by
  show ((db.opportunities.filter (oppVisible u)).any
      (fun o => o.id = a.opportunity_id ∧ o.user_id = u))
    = (db.opportunities.any (fun o => o.id = a.opportunity_id ∧ o.user_id = u))
  rw [Bool.eq_iff_iff, List.any_eq_true, List.any_eq_true]
  constructor
  · rintro ⟨o, ho, hp⟩
    exact ⟨o, (List.mem_filter.mp ho).1, hp⟩
  · rintro ⟨o, ho, hp⟩
    have hq := of_decide_eq_true hp
    exact ⟨o, List.mem_filter.mpr ⟨ho, by simp [oppVisible, hq.2]⟩, hp⟩

/-- A phase-progress row's RLS visibility for `u` is likewise unchanged by
erasure. -/
theorem ppVisible_erase (db : DB) (u : String) (p : PhaseProgressRow) :
    ppVisible (eraseTo u db) u p = ppVisible db u p := by
  show ((db.opportunities.filter (oppVisible u)).any
      (fun o => o.id = p.opportunity_id ∧ o.user_id = u))
    = (db.opportunities.any (fun o => o.id = p.opportunity_id ∧ o.user_id = u))
  rw [Bool.eq_iff_iff, List.any_eq_true, List.any_eq_true]
  constructor
  · rintro ⟨o, ho, hp⟩
    exact ⟨o, (List.mem_filter.mp ho).1, hp⟩
  · rintro ⟨o, ho, hp⟩
    have hq := of_decide_eq_true hp
    exact ⟨o, List.mem_filter.mpr ⟨ho, by simp [oppVisible, hq.2]⟩, hp⟩

/-- Nulling the pointers at `x` does not change the pointer lookup of an
owner none of whose rows point at `x`. -/
theorem getActive_delete_other (l : List ActiveOpportunityRow) (x u : String)
    (hpt : ∀ r ∈ l, r.user_id = u → ¬ r.opportunity_id = some x) :
    ((l.map (fun r => if r.opportunity_id = some x then { r with opportunity_id := none } else r)).find?
       (fun r => r.user_id = u)).bind (fun r => r.opportunity_id)
      = (l.find? (fun r => r.user_id = u)).bind (fun r => r.opportunity_id) := by
  induction l with
  | nil => rfl
  | cons a l ih =>
    have hptl : ∀ r ∈ l, r.user_id = u → ¬ r.opportunity_id = some x :=
      fun r hr => hpt r (List.mem_cons_of_mem a hr)
    by_cases hu : a.user_id = u
    · have hax : ¬ a.opportunity_id = some x := hpt a (List.mem_cons_self a l) hu
      simp only [List.map_cons, if_neg hax]
      rw [List.find?_cons_of_pos _ (by simp [hu]), List.find?_cons_of_pos _ (by simp [hu])]
    · simp only [List.map_cons]
      by_cases hp : a.opportunity_id = some x
      · rw [if_pos hp, List.find?_cons_of_neg _ (by simp [hu]),
          List.find?_cons_of_neg _ (by simp [hu])]
        exact ih hptl
      · rw [if_neg hp, List.find?_cons_of_neg _ (by simp [hu]),
          List.find?_cons_of_neg _ (by simp [hu])]
        exact ih hptl

/-- C8: every read is scoped to the supplied owner before access, per the
RLS policies of the multi-user schema.  First, a run against only the
caller's visible rows returns exactly what a run against the full database
returns (so two runs differing only in another owner's data agree for this
owner).  Second, a delete issued by a different owner `v` changes none of
owner `u`'s reads.  Third, an activate issued by `v` mutates no table row
visible to `u` and leaves `u`'s pointer lookup unchanged. -/
theorem c8_owner_scoping (db : DB) (u v x w : String) (db2 : DB)
    (hvu : ¬ v = u)
    (hids : (db.opportunities.map (fun o => o.id)).Nodup)
    (hwf : ∀ r ∈ db.active_opportunity, r.user_id = u →
       ∀ oid, r.opportunity_id = some oid →
         ∃ o ∈ db.opportunities, o.id = oid ∧ o.user_id = u) :
    (listOpportunities (eraseTo u db) u = listOpportunities db u ∧
     listArtifacts (eraseTo u db) u = listArtifacts db u ∧
     listPhaseProgress (eraseTo u db) u = listPhaseProgress db u ∧
     listActive (eraseTo u db) u = listActive db u ∧
     getActive (eraseTo u db) u = getActive db u) ∧
    (listOpportunities (deleteOpportunityAs db v x) u = listOpportunities db u ∧
     listArtifacts (deleteOpportunityAs db v x) u = listArtifacts db u ∧
     listPhaseProgress (deleteOpportunityAs db v x) u = listPhaseProgress db u ∧
     getActive (deleteOpportunityAs db v x) u = getActive db u) ∧
    (activate db v w = .ok db2 →
      db2.opportunities = db.opportunities ∧
      db2.artifacts = db.artifacts ∧
      db2.phase_progress = db.phase_progress ∧
      listActive db2 u = listActive db u ∧
      getActive db2 u = getActive db u) := by
  refine ⟨⟨?_, ?_, ?_, ?_, ?_⟩, ?_, ?_⟩
  · exact filter_filter_self (oppVisible u) db.opportunities
  · show (db.artifacts.filter (artifactVisible db u)).filter (artifactVisible (eraseTo u db) u)
      = db.artifacts.filter (artifactVisible db u)
    rw [List.filter_congr (fun a _ => artifactVisible_erase db u a)]
    exact filter_filter_self _ _
  · show (db.phase_progress.filter (ppVisible db u)).filter (ppVisible (eraseTo u db) u)
      = db.phase_progress.filter (ppVisible db u)
    rw [List.filter_congr (fun p _ => ppVisible_erase db u p)]
    exact filter_filter_self _ _
  · exact filter_filter_self (activeVisible u) db.active_opportunity
  · show ((db.active_opportunity.filter (fun r => r.user_id = u)).find?
        (fun r => r.user_id = u)).bind (fun r => r.opportunity_id)
      = (db.active_opportunity.find? (fun r => r.user_id = u)).bind
          (fun r => r.opportunity_id)
    rw [find?_filter_self]
  · -- the delete part
    unfold deleteOpportunityAs
    split
    case isFalse => exact ⟨rfl, rfl, rfl, rfl⟩
    case isTrue hown =>
      rw [List.any_eq_true] at hown
      obtain ⟨o0, ho0, hp0⟩ := hown
      have hq0 := of_decide_eq_true hp0
      have huniq : ∀ o ∈ db.opportunities, o.id = x → o = o0 := fun o ho hid =>
        List.inj_on_of_nodup_map hids ho ho0 (by rw [hid, hq0.1])
      have hvisA : ∀ a : ArtifactRow,
          artifactVisible (deleteOpportunity db x) u a = artifactVisible db u a := by
        intro a
        show ((db.opportunities.filter (fun o => !(o.id == x))).any
            (fun o => o.id = a.opportunity_id ∧ o.user_id = u))
          = (db.opportunities.any (fun o => o.id = a.opportunity_id ∧ o.user_id = u))
        rw [Bool.eq_iff_iff, List.any_eq_true, List.any_eq_true]
        constructor
        · rintro ⟨o, ho, hp⟩
          exact ⟨o, (List.mem_filter.mp ho).1, hp⟩
        · rintro ⟨o, ho, hp⟩
          have hq := of_decide_eq_true hp
          refine ⟨o, List.mem_filter.mpr ⟨ho, ?_⟩, hp⟩
          simp only [Bool.not_eq_true', beq_eq_false_iff_ne, ne_eq]
          intro hh
          have hoo := huniq o ho hh
          rw [hoo] at hq
          exact hvu (hq0.2.symm.trans hq.2)
      have hvisP : ∀ p : PhaseProgressRow,
          ppVisible (deleteOpportunity db x) u p = ppVisible db u p := by
        intro p
        show ((db.opportunities.filter (fun o => !(o.id == x))).any
            (fun o => o.id = p.opportunity_id ∧ o.user_id = u))
          = (db.opportunities.any (fun o => o.id = p.opportunity_id ∧ o.user_id = u))
        rw [Bool.eq_iff_iff, List.any_eq_true, List.any_eq_true]
        constructor
        · rintro ⟨o, ho, hp⟩
          exact ⟨o, (List.mem_filter.mp ho).1, hp⟩
        · rintro ⟨o, ho, hp⟩
          have hq := of_decide_eq_true hp
          refine ⟨o, List.mem_filter.mpr ⟨ho, ?_⟩, hp⟩
          simp only [Bool.not_eq_true', beq_eq_false_iff_ne, ne_eq]
          intro hh
          have hoo := huniq o ho hh
          rw [hoo] at hq
          exact hvu (hq0.2.symm.trans hq.2)
      refine ⟨?_, ?_, ?_, ?_⟩
      · show ((db.opportunities.filter (fun o => !(o.id == x))).filter (oppVisible u))
          = db.opportunities.filter (oppVisible u)
        rw [List.filter_filter]
        apply List.filter_congr
        intro o ho
        by_cases hu : o.user_id = u
        · have hox : ¬ o.id = x := by
            intro hh
            have hoo := huniq o ho hh
            rw [hoo] at hu
            exact hvu (hq0.2.symm.trans hu)
          simp [oppVisible, hu, hox]
        · simp [oppVisible, hu]
      · show ((db.artifacts.filter (fun a => !(a.opportunity_id == x))).filter
            (artifactVisible (deleteOpportunity db x) u))
          = db.artifacts.filter (artifactVisible db u)
        rw [List.filter_congr (fun a _ => hvisA a), List.filter_filter]
        apply List.filter_congr
        intro a _
        by_cases hv : artifactVisible db u a = true
        · have hax : ¬ a.opportunity_id = x := by
            intro hh
            unfold artifactVisible at hv
            rw [List.any_eq_true] at hv
            obtain ⟨o, ho, hp⟩ := hv
            have hq := of_decide_eq_true hp
            have hoo := huniq o ho (by rw [hq.1, hh])
            rw [hoo] at hq
            exact hvu (hq0.2.symm.trans hq.2)
          simp [hv, hax]
        · have hv' : artifactVisible db u a = false := by
            simpa using hv
          simp [hv']
      · show ((db.phase_progress.filter (fun p => !(p.opportunity_id == x))).filter
            (ppVisible (deleteOpportunity db x) u))
          = db.phase_progress.filter (ppVisible db u)
        rw [List.filter_congr (fun p _ => hvisP p), List.filter_filter]
        apply List.filter_congr
        intro p _
        by_cases hv : ppVisible db u p = true
        · have hax : ¬ p.opportunity_id = x := by
            intro hh
            unfold ppVisible at hv
            rw [List.any_eq_true] at hv
            obtain ⟨o, ho, hp⟩ := hv
            have hq := of_decide_eq_true hp
            have hoo := huniq o ho (by rw [hq.1, hh])
            rw [hoo] at hq
            exact hvu (hq0.2.symm.trans hq.2)
          simp [hv, hax]
        · have hv' : ppVisible db u p = false := by
            simpa using hv
          simp [hv']
      · show ((db.active_opportunity.map (fun r =>
            if r.opportunity_id = some x then { r with opportunity_id := none } else r)).find?
              (fun r => r.user_id = u)).bind (fun r => r.opportunity_id)
          = (db.active_opportunity.find? (fun r => r.user_id = u)).bind
              (fun r => r.opportunity_id)
        apply getActive_delete_other
        intro r hr hru hrp
        obtain ⟨o, ho, hq⟩ := hwf r hr hru x hrp
        have hoo := huniq o ho hq.1
        rw [hoo] at hq
        exact hvu (hq0.2.symm.trans hq.2)
  · -- the activate part
    intro h
    unfold activate at h
    split at h
    case isFalse => exact absurd h (by simp)
    case isTrue =>
      split at h
      case isTrue =>
        simp only [Except.ok.injEq] at h
        subst h
        refine ⟨rfl, rfl, rfl, ?_, ?_⟩
        · exact upsert_filter_other db.active_opportunity v w u (fun hh => hvu hh.symm)
        · show ((db.active_opportunity.map (fun r =>
              if r.user_id = v then { r with opportunity_id := some w } else r)).find?
                (fun r => r.user_id = u)).bind (fun r => r.opportunity_id)
            = (db.active_opportunity.find? (fun r => r.user_id = u)).bind
                (fun r => r.opportunity_id)
          rw [find?_eq_head?_filter, find?_eq_head?_filter,
            upsert_filter_other db.active_opportunity v w u (fun hh => hvu hh.symm)]
      case isFalse =>
        simp only [Except.ok.injEq] at h
        subst h
        refine ⟨rfl, rfl, rfl, ?_, ?_⟩
        · show (({ user_id := v, opportunity_id := some w } :: db.active_opportunity).filter
              (activeVisible u))
            = db.active_opportunity.filter (activeVisible u)
          rw [List.filter_cons_of_neg (by simp [activeVisible, hvu])]
        · show ((({ user_id := v, opportunity_id := some w } : ActiveOpportunityRow)
              :: db.active_opportunity).find? (fun r => r.user_id = u)).bind
                (fun r => r.opportunity_id)
            = (db.active_opportunity.find? (fun r => r.user_id = u)).bind
                (fun r => r.opportunity_id)
          rw [List.find?_cons_of_neg _ (by simp [hvu])]

/-- Closed witness for C8 on `twoUserDb`: erasing user 2's data does not
change user 1's reads, and user 2 deleting or re-activating their own
opportunity leaves user 1's reads and pointer untouched. -/
theorem c8_witness :
    listOpportunities (eraseTo "u1" twoUserDb) "u1" = listOpportunities twoUserDb "u1" ∧
    listArtifacts (eraseTo "u1" twoUserDb) "u1" = listArtifacts twoUserDb "u1" ∧
    listOpportunities (deleteOpportunityAs twoUserDb "u2" "o2") "u1"
      = listOpportunities twoUserDb "u1" ∧
    getActive (deleteOpportunityAs twoUserDb "u2" "o2") "u1" = getActive twoUserDb "u1" ∧
    ∃ db2, activate twoUserDb "u2" "o2" = .ok db2 ∧
      getActive db2 "u1" = getActive twoUserDb "u1" := by
  refine ⟨?_, ?_, ?_, ?_, _, rfl, ?_⟩
  · exact (c8_owner_scoping twoUserDb "u1" "u2" "o2" "o2" twoUserDb
      (by decide) (by decide) (by decide)).1.1
  · exact (c8_owner_scoping twoUserDb "u1" "u2" "o2" "o2" twoUserDb
      (by decide) (by decide) (by decide)).1.2.1
  · exact (c8_owner_scoping twoUserDb "u1" "u2" "o2" "o2" twoUserDb
      (by decide) (by decide) (by decide)).2.1.1
  · exact (c8_owner_scoping twoUserDb "u1" "u2" "o2" "o2" twoUserDb
      (by decide) (by decide) (by decide)).2.1.2.2.2
  · exact ((c8_owner_scoping twoUserDb "u1" "u2" "o2" "o2" _
      (by decide) (by decide) (by decide)).2.2 rfl).2.2.2.2

end ConsultingAI
